import Mathlib

/-!
# Verification of the CLIP image-search core

Shallow embedding of the natural-language image-search component of the
notebook collection (the "CLIP Image Search" notebook): the dataset
embedding loop, the similarity ranking in `search_images`, and the
module-level search session state.  Embedding vectors are modelled as
lists of rationals (idealized IEEE floats); numpy's `argsort` (default
kind, the reference introsort from `npysort/quicksort.c.src`,
`aquicksort`) is modelled exactly, since the ranking's tie order depends
on it.
-/

namespace ClipSearch

/-- An embedding vector: a fixed-length sequence of numbers. -/
abbrev Vec := List ℚ

/-- Inner product of two vectors, the similarity metric used by
`similarities = image_features @ text_features.T` (raw dot product,
not cosine-normalized). -/
def dot : Vec → Vec → ℚ
  | [], _ => 0
  | _, [] => 0
  | a :: as, b :: bs => a * b + dot as bs

/-! ## numpy `argsort` (default kind = introsort, `aquicksort`)

`(-similarities).argsort()` sorts indices ascending by key.  numpy's
reference implementation: for a span of at most `SMALL_QUICKSORT + 1`
elements a stable insertion sort; otherwise median-of-3 quicksort
partitioning with a per-path depth budget `2 * npy_get_msb(num)`,
falling back to heapsort when the budget is exhausted. -/

def SMALL_QUICKSORT : Nat := 15

/-- Halving loop for `npyGetMsb`; the first argument is fuel bounding
the number of halvings (`n` itself is always enough). -/
def npyGetMsbAux : Nat → Nat → Nat
  | 0, _ => 0
  | fuel+1, n => if n ≤ 1 then 0 else npyGetMsbAux fuel (n / 2) + 1

/-- `npy_get_msb`: position of the most significant bit (`⌊log₂ n⌋` for
`n ≥ 1`). -/
def npyGetMsb (n : Nat) : Nat := npyGetMsbAux n n

/-- One step of numpy's insertion sort, functionally: the element `i` is
shifted left past every element with a strictly greater key, so it lands
after all elements with key `≤ v i` (stable for equal keys). -/
def aInsert (v : Nat → ℚ) (i : Nat) : List Nat → List Nat
  | [] => [i]
  | j :: l => if v i < v j then i :: j :: l else j :: aInsert v i l

/-- numpy's insertion sort of a list of indices by key `v`, processing
the list left to right and inserting each element into the sorted
prefix. -/
def insertionSortIdx (v : Nat → ℚ) (l : List Nat) : List Nat :=
  l.foldl (fun acc i => aInsert v i acc) []

/-- `argsort` for at most `SMALL_QUICKSORT + 1` elements: the quicksort
loop is skipped and the whole index range is insertion-sorted. -/
def insertionArgsort (vs : List ℚ) : List Nat :=
  insertionSortIdx (fun j => vs.getD j 0) (List.range vs.length)

/-- Key of slot `i` of the index array `t`: `v[t[i]]`. -/
def akey (v : Array ℚ) (t : Array Nat) (i : Nat) : ℚ :=
  v.getD (t.getD i 0) 0

/-- `INTP_SWAP(*i, *j)` on the index array. -/
def aswap (t : Array Nat) (i j : Nat) : Array Nat :=
  let x := t.getD i 0
  let y := t.getD j 0
  (t.setD i y).setD j x

/-- `do ++pi; while (LT(v[*pi], vp))`: first slot `≥ i` whose key is not
below the pivot.  The fuel bounds the scan; the pivot parked at `pr - 1`
stops it in every reachable state. -/
def scanUp (v : Array ℚ) (t : Array Nat) (vp : ℚ) : Nat → Nat → Nat
  | i, 0 => i
  | i, fuel+1 => if v.getD (t.getD i 0) 0 < vp then scanUp v t vp (i+1) fuel else i

/-- `do --pj; while (LT(vp, v[*pj]))`: first slot `≤ j` whose key is not
above the pivot. -/
def scanDown (v : Array ℚ) (t : Array Nat) (vp : ℚ) : Nat → Nat → Nat
  | j, 0 => j
  | j, fuel+1 => if vp < v.getD (t.getD j 0) 0 then scanDown v t vp (j-1) fuel else j

/-- The partition exchange loop: advance both scans, stop when they
cross, otherwise swap and continue.  Returns the final `pi`. -/
def partLoop (v : Array ℚ) (vp : ℚ) : Nat → Array Nat → Nat → Nat → Array Nat × Nat
  | 0, t, pi, _ => (t, pi)
  | fuel+1, t, pi, pj =>
    let pi' := scanUp v t vp (pi+1) (fuel+1)
    let pj' := scanDown v t vp (pj-1) (fuel+1)
    if pj' ≤ pi' then (t, pi')
    else partLoop v vp fuel (aswap t pi' pj') pi' pj'

/-- One median-of-3 partition of the segment `[pl, pr]`, exactly as in
`aquicksort`: order `t[pl], t[pm], t[pr]`, park the pivot at `pr - 1`,
run the exchange loop, and swap the pivot into its final slot `pi`. -/
def partitionSeg (v : Array ℚ) (t : Array Nat) (pl pr : Nat) : Array Nat × Nat :=
  let pm := pl + (pr - pl) / 2
  let t1 := if akey v t pm < akey v t pl then aswap t pm pl else t
  let t2 := if akey v t1 pr < akey v t1 pm then aswap t1 pr pm else t1
  let t3 := if akey v t2 pm < akey v t2 pl then aswap t2 pm pl else t2
  let vp := akey v t3 pm
  let t4 := aswap t3 pm (pr - 1)
  let r := partLoop v vp (pr - pl + 2) t4 pl (pr - 1)
  (aswap r.1 r.2 (pr - 1), r.2)

/-- numpy's insertion sort on the segment `[pl, pr]` of the index
array. -/
def insertionSeg (v : Array ℚ) (t : Array Nat) (pl pr : Nat) : Array Nat :=
  let seg := (t.toList.drop pl).take (pr + 1 - pl)
  let sorted := insertionSortIdx (fun j => v.getD j 0) seg
  (t.toList.take pl ++ sorted ++ t.toList.drop (pr + 1)).toArray

/-- numpy `aheapsort` sift-down on a 1-based segment array `a` of size
`n` (slot `x` stored at position `x - 1`). -/
def siftDown (v : Array ℚ) (n tmp : Nat) : Nat → Nat → Nat → Array Nat → Array Nat
  | i, _, 0, a => a.setD (i-1) tmp
  | i, j, fuel+1, a =>
    if j ≤ n then
      let j' := if j < n ∧ v.getD (a.getD (j-1) 0) 0 < v.getD (a.getD j 0) 0 then j+1 else j
      if v.getD tmp 0 < v.getD (a.getD (j'-1) 0) 0 then
        siftDown v n tmp j' (j'+j') fuel (a.setD (i-1) (a.getD (j'-1) 0))
      else a.setD (i-1) tmp
    else a.setD (i-1) tmp

/-- Heapify pass: `for (l = n >> 1; l > 0; --l)`. -/
def heapifyLoop (v : Array ℚ) (n : Nat) : Nat → Array Nat → Array Nat
  | 0, a => a
  | l+1, a => heapifyLoop v n l (siftDown v n (a.getD l 0) (l+1) (2*(l+1)) (n+2) a)

/-- Extraction pass: `for (; n > 1;)`. -/
def heapExtract (v : Array ℚ) : Nat → Array Nat → Array Nat
  | 0, a => a
  | 1, a => a
  | m+2, a =>
    let tmp := a.getD (m+1) 0
    let a1 := a.setD (m+1) (a.getD 0 0)
    let a2 := siftDown v (m+1) tmp 1 2 (m+3) a1
    heapExtract v (m+1) a2

/-- numpy `aheapsort` on the segment `[pl, pr]` of the index array. -/
def aheapsortSeg (v : Array ℚ) (t : Array Nat) (pl pr : Nat) : Array Nat :=
  let n := pr + 1 - pl
  let seg := ((t.toList.drop pl).take n).toArray
  let seg' := heapExtract v n (heapifyLoop v n (n / 2) seg)
  (t.toList.take pl ++ seg'.toList ++ t.toList.drop (pr + 1)).toArray

/-- The `aquicksort` driver on the segment `[pl, pr]`.  `chk` is true
when the segment was popped from the stack, where the saved depth budget
`d` is tested (`if (cdepth < 0) heapsort`); a segment continued directly
inside the while loop is not re-tested.  Partitioning pushes the larger
side (processed later, with the decremented budget) and continues with
the smaller.  The fuel only bounds the recursion; each sub-segment is
strictly smaller, so fuel `num + 2` is never exhausted. -/
def introSortSeg (v : Array ℚ) : Nat → Bool → Array Nat → Nat → Nat → Int → Array Nat
  | 0, _, t, _, _, _ => t
  | fuel+1, chk, t, pl, pr, d =>
    if chk = true ∧ d < 0 then aheapsortSeg v t pl pr
    else if SMALL_QUICKSORT < pr - pl then
      let p := partitionSeg v t pl pr
      let pi := p.2
      if pi - pl < pr - pi then
        let t' := introSortSeg v fuel false p.1 pl (pi - 1) (d - 1)
        introSortSeg v fuel true t' (pi + 1) pr (d - 1)
      else
        let t' := introSortSeg v fuel false p.1 (pi + 1) pr (d - 1)
        introSortSeg v fuel true t' pl (pi - 1) (d - 1)
    else insertionSeg v t pl pr

/-- `np.argsort(vs)` with the default kind: indices `0 .. n-1` sorted
ascending by key.  For `n ≤ 16` the quicksort loop is skipped and the
whole range is insertion-sorted (stable); otherwise the full introsort
runs with depth budget `2 * npy_get_msb n`. -/
def np_argsort (vs : List ℚ) : List Nat :=
  if vs.length ≤ SMALL_QUICKSORT + 1 then insertionArgsort vs
  else
    (introSortSeg vs.toArray (vs.length + 2) true (Array.range vs.length) 0
      (vs.length - 1) (2 * (npyGetMsb vs.length : Int))).toList

/-! ## The ranking step of `search_images` -/

/-- Python slice `l[:k]` for an integer `k`: the first `k` elements when
`k ≥ 0`, everything but the last `|k|` elements when `k < 0`. -/
def pySliceTo (k : Int) (l : List α) : List α :=
  if 0 ≤ k then l.take k.toNat else l.take ((l.length : Int) + k).toNat

/-- `similarities = (image_features @ text_features.T).squeeze(1)`:
the dot product of every stored image embedding with the query
embedding. -/
def similarities (features : List Vec) (tf : Vec) : List ℚ :=
  features.map (fun f => dot f tf)

/-- `best_photo_idx = (-similarities).argsort()[:num_results]`. -/
def bestPhotoIdx (sims : List ℚ) (num_results : Int) : List Nat :=
  pySliceTo num_results (np_argsort (sims.map (fun s => -s)))

/-- The ranking tail of `search_images` (index level): compute the
similarities, return Python `None` when no similarity exceeds the
threshold (`if not valid_matches.any(): return None`), otherwise the
top indices filtered by the strict threshold
(`[... for i in best_photo_idx if similarities[i] > similarity_threshold]`). -/
def rankIdx (features : List Vec) (tf : Vec) (num_results : Int) (t : ℚ) : Option (List Nat) :=
  if (similarities features tf).any (fun s => decide (t < s)) then
    some ((bestPhotoIdx (similarities features tf) num_results).filter
      (fun i => decide (t < (similarities features tf).getD i 0)))
  else none

/-- The ranking tail at the image level:
`[processed_images[i] for i in best_photo_idx if ...]`.  Every index
produced by `argsort` is below the collection length, so the `getD`
default is never consulted. -/
def rank {α : Type} [Inhabited α] (images : List α) (features : List Vec) (tf : Vec)
    (num_results : Int) (t : ℚ) : Option (List α) :=
  (rankIdx features tf num_results t).map (fun l => l.map (fun i => images.getD i default))

/-! ## The dataset embedding loop (collection build) -/

/-- The dataset embedding loop of the notebook:
`for image, _ in dataset: image = image.convert('RGB');
processed_images.append(image); features = model.encode_image(...);
image_features.append(features)`.  There is no `try`/`except` around
the encode call: an encode failure (modelled as `none`) propagates and
aborts the whole loop, so the build yields no collection at all.  On
success the result is `(processed_images, image_features)` in ingestion
order. -/
def build {α : Type} (convert_rgb : α → α) (encode_image : α → Option Vec) :
    List α → Option (List α × List Vec)
  | [] => some ([], [])
  | img :: rest =>
    (encode_image (convert_rgb img)).bind fun f =>
      (build convert_rgb encode_image rest).map
        (fun p => (convert_rgb img :: p.1, f :: p.2))

/-! ## The search session (module-level state of the notebook) -/

/-- Python exceptions observable in the embedded fragment. -/
inductive PyError where
  | nameError
  deriving DecidableEq, Repr

/-- The module-level state after running the notebook cells:
`model`/`preprocess` from `load_model()`, the embedded dataset, and the
name `current_model`, which is read by `search_images` but is never
assigned by any cell — modelled as `Option`, `none` meaning unbound. -/
structure Session (α : Type) where
  current_model : Option String
  model : String
  image_features : List Vec
  processed_images : List α

/-- The state produced by executing the notebook top to bottom:
`load_model()` loads the default `"CLIP (ViT-B/32)"`, the dataset loop
fills `image_features`/`processed_images`, and `current_model` is never
bound. -/
def initSession {α : Type} (images : List α) (feats : List Vec) : Session α :=
  { current_model := none
    model := "CLIP (ViT-B/32)"
    image_features := feats
    processed_images := images }

/-- `search_images(query, model_choice, num_results, similarity_threshold)`.
Reading the unbound global `current_model` raises `NameError`.  Were it
bound: `if model_choice != current_model: model, preprocess =
load_model(model_choice)` replaces only the model (and preprocess);
`image_features` and `processed_images` are left as built at startup,
and `current_model` itself is not reassigned.  Then the query is
encoded with the (possibly new) model and the ranking tail runs. -/
def search_images {α : Type} [Inhabited α] (s : Session α)
    (encode_text : String → String → Vec) (query model_choice : String)
    (num_results : Int) (similarity_threshold : ℚ) :
    Except PyError (Session α × Option (List α)) :=
  match s.current_model with
  | none => Except.error PyError.nameError
  | some cm =>
    let s' := if model_choice ≠ cm then { s with model := model_choice } else s
    let tf := encode_text s'.model query
    Except.ok (s', rank s'.processed_images s'.image_features tf num_results similarity_threshold)

/-! ## Order predicates used to state the ranking claims -/

/-- Ascending lexicographic order on indices used by a stable ascending
argsort: key strictly smaller, or equal key and smaller index. -/
def keyLex (v : Nat → ℚ) (i j : Nat) : Prop :=
  v i < v j ∨ (v i = v j ∧ i < j)

/-- The result order claimed by the spec: similarity descending, ties by
ascending original index. -/
def resultOrdered (sims : List ℚ) (l : List Nat) : Prop :=
  l.Pairwise (fun i j =>
    sims.getD j 0 < sims.getD i 0 ∨ (sims.getD i 0 = sims.getD j 0 ∧ i < j))

/-! ## Helper lemmas -/

theorem mem_aInsert (v : Nat → ℚ) (i x : Nat) (l : List Nat) :
    x ∈ aInsert v i l ↔ x = i ∨ x ∈ l := by
  induction l with
  | nil => simp [aInsert]
  | cons j rest ih =>
    by_cases h : v i < v j
    · simp [aInsert, h, ih]
    · simp [aInsert, h, ih]
      tauto

theorem pairwise_aInsert (v : Nat → ℚ) (i : Nat) (l : List Nat)
    (hl : l.Pairwise (keyLex v)) (hb : ∀ j ∈ l, j < i) :
    (aInsert v i l).Pairwise (keyLex v) := by
  induction l with
  | nil => simp [aInsert]
  | cons j rest ih =>
    rw [aInsert]
    by_cases h : v i < v j
    · rw [if_pos h]
      refine List.Pairwise.cons ?_ hl
      intro k hk
      rcases List.mem_cons.mp hk with rfl | hk'
      · exact Or.inl h
      · rcases (List.pairwise_cons.mp hl).1 k hk' with h1 | ⟨h1, _⟩
        · exact Or.inl (h.trans h1)
        · exact Or.inl (h1 ▸ h)
    · rw [if_neg h]
      have hl' := List.pairwise_cons.mp hl
      refine List.Pairwise.cons ?_ (ih hl'.2 (fun k hk => hb k (List.mem_cons_of_mem _ hk)))
      intro k hk
      rcases (mem_aInsert v i k rest).mp hk with rfl | hk'
      · rcases lt_or_eq_of_le (not_lt.mp h) with h1 | h1
        · exact Or.inl h1
        · exact Or.inr ⟨h1, hb j (List.mem_cons_self _ _)⟩
      · exact hl'.1 k hk'

theorem pairwise_insertFold (v : Nat → ℚ) (l : List Nat) (acc : List Nat)
    (hacc : acc.Pairwise (keyLex v)) (hlt : ∀ j ∈ acc, ∀ i ∈ l, j < i)
    (hl : l.Pairwise (· < ·)) :
    (l.foldl (fun a i => aInsert v i a) acc).Pairwise (keyLex v) := by
  induction l generalizing acc with
  | nil => simpa using hacc
  | cons i rest ih =>
    rw [List.foldl_cons]
    have hl' := List.pairwise_cons.mp hl
    apply ih
    · exact pairwise_aInsert v i acc hacc (fun j hj => hlt j hj i (List.mem_cons_self _ _))
    · intro j hj i' hi'
      rcases (mem_aInsert v i j acc).mp hj with rfl | hj'
      · exact hl'.1 i' hi'
      · exact hlt j hj' i' (List.mem_cons_of_mem _ hi')
    · exact hl'.2

theorem pairwise_insertionArgsort (vs : List ℚ) :
    (insertionArgsort vs).Pairwise (keyLex (fun j => vs.getD j 0)) := by
  refine pairwise_insertFold _ _ _ List.Pairwise.nil ?_ (List.pairwise_lt_range _)
  intro j hj
  simp at hj

theorem getD_map_neg (l : List ℚ) (i : Nat) :
    (l.map (fun s => -s)).getD i 0 = -(l.getD i 0) := by
  induction l generalizing i with
  | nil => simp
  | cons a l ih =>
    cases i with
    | zero => simp
    | succ n => simpa using ih n

theorem getD_similarities (features : List Vec) (tf : Vec) (i : Nat)
    (h : i < features.length) :
    (similarities features tf).getD i 0 = dot (features.getD i []) tf := by
  induction features generalizing i with
  | nil => simp at h
  | cons f rest ih =>
    cases i with
    | zero => simp [similarities]
    | succ n =>
      have hn : n < rest.length := by simpa using h
      simpa [similarities] using ih n hn

theorem bestPhotoIdx_sublist (sims : List ℚ) (k : Int) :
    (bestPhotoIdx sims k).Sublist (np_argsort (sims.map (fun s => -s))) := by
  unfold bestPhotoIdx pySliceTo
  split
  · exact List.take_sublist _ _
  · exact List.take_sublist _ _

/-- Similarities of the spec's concrete 3-item scenario: embeddings
`[1,0]`, `[0,1]`, `[0.7,0.7]`, query vector `[1,0]`. -/
theorem sims_scenario :
    similarities [[1, 0], [0, 1], [mkRat 7 10, mkRat 7 10]] [1, 0] = [1, 0, mkRat 7 10] := by
  simp only [similarities, List.map_cons, List.map_nil, dot]
  norm_num [Rat.mkRat_eq_div]

/-- Similarities of 17 identical one-dimensional embeddings against the
matching query. -/
theorem sims_replicate17 :
    similarities (List.replicate 17 [1]) [1] = List.replicate 17 1 := by
  simp only [similarities, List.map_replicate, dot]
  norm_num

/-- Similarity of the single stored embedding in the backend-switch
scenario. -/
theorem sims_single : similarities [[1, 0]] [1, 0] = [1] := by
  simp only [similarities, List.map_cons, List.map_nil, dot]
  norm_num

/-- The ranking of the concrete scenario at `k = 2`, threshold `0.5`. -/
theorem rankIdx_scenario_k2 :
    rankIdx [[1, 0], [0, 1], [mkRat 7 10, mkRat 7 10]] [1, 0] 2 (mkRat 1 2) = some [0, 2] := by
  unfold rankIdx bestPhotoIdx
  rw [sims_scenario]
  decide

/-! ## Claim theorems -/

/-- Claim C2: every item in the result returned by the ranking step has
similarity strictly greater than the threshold `t`, similarity being the
raw dot product of the query vector with the item's stored embedding;
no item with similarity `≤ t` ever appears in the result. -/
theorem rank_similarity_above_threshold (features : List Vec) (tf : Vec) (k : Int) (t : ℚ)
    (l : List Nat) (h : rankIdx features tf k t = some l) :
    (∀ i ∈ l, t < (similarities features tf).getD i 0) ∧
    (∀ i, i < features.length →
      (similarities features tf).getD i 0 = dot (features.getD i []) tf) := by
  refine ⟨?_, fun i hi => getD_similarities features tf i hi⟩
  unfold rankIdx at h
  split at h
  · have hl : l = (bestPhotoIdx (similarities features tf) k).filter
        (fun i => decide (t < (similarities features tf).getD i 0)) :=
      (Option.some.inj h).symm
    subst hl
    intro i hi
    simpa using List.of_mem_filter hi
  · exact absurd h (by simp)

theorem rank_similarity_above_threshold_witness :
    mkRat 1 2 < (similarities [[1, 0], [0, 1], [mkRat 7 10, mkRat 7 10]] [1, 0]).getD 0 0 :=
  (rank_similarity_above_threshold [[1, 0], [0, 1], [mkRat 7 10, mkRat 7 10]] [1, 0] 2
    (mkRat 1 2) [0, 2] rankIdx_scenario_k2).1 0 (by decide)

/-- Claim C3 (counterexample): on a collection of 17 items with identical
embeddings, the ranking returns the tie-broken order produced by numpy's
unstable introsort partitioning — for example index 14 before index 13 —
which is not ascending original-index order for equal similarities. -/
theorem rank_equal_sims_tie_order_broken :
    rankIdx (List.replicate 17 [1]) [1] 17 0 =
      some [0, 14, 13, 12, 11, 10, 9, 15, 8, 6, 5, 4, 3, 2, 1, 7, 16] ∧
    ¬ resultOrdered (similarities (List.replicate 17 [1]) [1])
      [0, 14, 13, 12, 11, 10, 9, 15, 8, 6, 5, 4, 3, 2, 1, 7, 16] := by
  constructor
  · unfold rankIdx bestPhotoIdx
    rw [sims_replicate17]
    decide
  · unfold resultOrdered
    rw [sims_replicate17]
    decide

/-- Claim C3 (amended): for collections of at most 16 items — where
numpy's `argsort` reduces to its stable insertion sort — the result is
sorted by similarity descending, with equal similarities in ascending
original-index order.  (For 17 or more items the introsort partitioning
can emit ties out of index order.) -/
theorem rank_sorted_desc_ties_ascending_small (features : List Vec) (tf : Vec) (k : Int)
    (t : ℚ) (l : List Nat) (hn : features.length ≤ 16)
    (h : rankIdx features tf k t = some l) :
    resultOrdered (similarities features tf) l := by
  unfold rankIdx at h
  split at h
  case isFalse => exact absurd h (by simp)
  case isTrue hany =>
  have hl : l = (bestPhotoIdx (similarities features tf) k).filter
      (fun i => decide (t < (similarities features tf).getD i 0)) :=
    (Option.some.inj h).symm
  subst hl
  have hlen : ((similarities features tf).map (fun s => -s)).length ≤ SMALL_QUICKSORT + 1 := by
    simpa [similarities, SMALL_QUICKSORT] using hn
  have hargs : np_argsort ((similarities features tf).map (fun s => -s))
      = insertionArgsort ((similarities features tf).map (fun s => -s)) := by
    unfold np_argsort
    rw [if_pos hlen]
  have hpw := pairwise_insertionArgsort ((similarities features tf).map (fun s => -s))
  rw [← hargs] at hpw
  have hsub : ((bestPhotoIdx (similarities features tf) k).filter
      (fun i => decide (t < (similarities features tf).getD i 0))).Sublist
      (np_argsort ((similarities features tf).map (fun s => -s))) :=
    (List.filter_sublist _).trans (bestPhotoIdx_sublist _ _)
  have hpl := List.Pairwise.sublist hsub hpw
  unfold resultOrdered
  refine List.Pairwise.imp ?_ hpl
  intro i j hij
  rw [keyLex, getD_map_neg, getD_map_neg] at hij
  rcases hij with h1 | ⟨h1, h2⟩
  · exact Or.inl (neg_lt_neg_iff.mp h1)
  · exact Or.inr ⟨neg_inj.mp h1, h2⟩

theorem rank_sorted_desc_ties_ascending_small_witness :
    resultOrdered (similarities [[1, 0], [0, 1], [mkRat 7 10, mkRat 7 10]] [1, 0]) [0, 2] :=
  rank_sorted_desc_ties_ascending_small [[1, 0], [0, 1], [mkRat 7 10, mkRat 7 10]] [1, 0] 2
    (mkRat 1 2) [0, 2] (by decide) rankIdx_scenario_k2

/-- Claim C4: on the 3-item collection with embeddings `[1,0]`, `[0,1]`,
`[0.7,0.7]` and query vector `[1,0]`, the ranking with `k = 2` and
threshold `0.5` returns exactly items 0 and 2 in that order, whose
similarities are `1` and `0.7`, excluding item 1 (similarity `0`); with
`k = 1` only item 0; with threshold `0.95` only item 0. -/
theorem rank_concrete_scenario :
    rankIdx [[1, 0], [0, 1], [mkRat 7 10, mkRat 7 10]] [1, 0] 2 (mkRat 1 2) = some [0, 2] ∧
    similarities [[1, 0], [0, 1], [mkRat 7 10, mkRat 7 10]] [1, 0] = [1, 0, mkRat 7 10] ∧
    rank [10, 11, 12] [[1, 0], [0, 1], [mkRat 7 10, mkRat 7 10]] [1, 0] 2 (mkRat 1 2)
      = some [10, 12] ∧
    rankIdx [[1, 0], [0, 1], [mkRat 7 10, mkRat 7 10]] [1, 0] 1 (mkRat 1 2) = some [0] ∧
    rankIdx [[1, 0], [0, 1], [mkRat 7 10, mkRat 7 10]] [1, 0] 2 (mkRat 19 20) = some [0] := by
  refine ⟨rankIdx_scenario_k2, sims_scenario, ?_, ?_, ?_⟩
  · unfold rank
    rw [rankIdx_scenario_k2]
    decide
  · unfold rankIdx bestPhotoIdx
    rw [sims_scenario]
    decide
  · unfold rankIdx bestPhotoIdx
    rw [sims_scenario]
    decide

/-- Claim C5 (counterexample): when no item's similarity exceeds the
threshold, `search_images` returns Python `None` — a sentinel distinct
from an empty result list — rather than an empty sequence. -/
theorem rank_no_match_returns_none_sentinel :
    rankIdx [[1, 0], [0, 1], [mkRat 7 10, mkRat 7 10]] [1, 0] 9 2 = none ∧
    (none : Option (List Nat)) ≠ some [] := by
  constructor
  · unfold rankIdx bestPhotoIdx
    rw [sims_scenario]
    decide
  · decide

/-- Claim C5 (amended): for every query, collection, `k` and threshold
`t` such that no item's similarity is strictly above `t`, the ranking
returns Python's `None` sentinel — not an error, and not an empty list:
the UI wrapper maps `None` to an empty grid. -/
theorem rank_none_when_no_match (features : List Vec) (tf : Vec) (k : Int) (t : ℚ)
    (h : ∀ s ∈ similarities features tf, s ≤ t) :
    rankIdx features tf k t = none := by
  have hany : (similarities features tf).any (fun s => decide (t < s)) = false := by
    rw [List.any_eq_false]
    intro s hs
    exact fun hc => absurd (of_decide_eq_true hc) (not_lt.mpr (h s hs))
  unfold rankIdx
  rw [hany]
  simp

theorem rank_none_when_no_match_witness :
    rankIdx [[1, 0], [0, 1], [mkRat 7 10, mkRat 7 10]] [1, 0] 9 3 = none :=
  rank_none_when_no_match [[1, 0], [0, 1], [mkRat 7 10, mkRat 7 10]] [1, 0] 9 3
    (by rw [sims_scenario]; decide)

/-- Claim C6 (counterexample): a call with `k = 0` does not fail with
`InvalidArgumentError` — no such validation (nor any such error class)
exists in the code: it returns the empty result list, and `k = -1`
drops the last entry of the ranked index list before the threshold
filter (Python slice semantics): the ranked order `[0, 2, 1]` becomes
`[0, 2]`, which the filter leaves as `[0, 2]`. -/
theorem rank_k_zero_no_error :
    rankIdx [[1, 0], [0, 1], [mkRat 7 10, mkRat 7 10]] [1, 0] 0 (mkRat 1 2) = some [] ∧
    rankIdx [[1, 0], [0, 1], [mkRat 7 10, mkRat 7 10]] [1, 0] (-1) (mkRat 1 2) = some [0, 2] := by
  constructor
  · unfold rankIdx bestPhotoIdx
    rw [sims_scenario]
    decide
  · unfold rankIdx bestPhotoIdx
    rw [sims_scenario]
    decide

/-- Claim C6 (amended): the ranking performs no validation of `k`: with
`k = 0` it returns the empty list whenever some item passes the
threshold (and the `None` sentinel otherwise); it never fails with
`InvalidArgumentError`, a class that does not exist in the program. -/
theorem rank_k_zero_returns_empty (features : List Vec) (tf : Vec) (t : ℚ) :
    rankIdx features tf 0 t =
      (if (similarities features tf).any (fun s => decide (t < s)) then some [] else none) := by
  unfold rankIdx bestPhotoIdx pySliceTo
  norm_num

/-- Claim C7 (counterexample): an `embed_image` failure on item `1` of
`[0, 1, 2]` aborts the whole build — the result is no collection at
all, not the 2-item collection (with items `0` and `2`) that skipping
would produce. -/
theorem build_aborts_on_item_failure_concrete :
    build (fun x => x) (fun x : ℚ => if x = 1 then none else some [x]) [0, 1, 2] = none ∧
    (none : Option (List ℚ × List Vec)) ≠ some ([0, 2], [[0], [2]]) := by
  constructor
  · decide
  · decide

/-- Claim C7 (amended): a failure of `embed_image` on any individual
item aborts the entire collection build with that failure — the dataset
embedding loop has no per-item exception handling, no item is skipped,
and no skip count is reported. -/
theorem build_aborts_on_item_failure {α : Type} (c : α → α) (e : α → Option Vec)
    (items : List α) (x : α) (hx : x ∈ items) (hfail : e (c x) = none) :
    build c e items = none := by
  induction items with
  | nil => simp at hx
  | cons a rest ih =>
    rcases List.mem_cons.mp hx with rfl | hx'
    · unfold build
      rw [hfail]
      rfl
    · unfold build
      cases he : e (c a) with
      | none => rfl
      | some f => rw [ih hx']; rfl

theorem build_aborts_on_item_failure_witness :
    build (fun x => x) (fun x : ℚ => if x = 1 then none else some [x]) [5, 1] = none :=
  build_aborts_on_item_failure (fun x => x) (fun x : ℚ => if x = 1 then none else some [x])
    [5, 1] 1 (by decide) (by decide)

/-- Claim C8: for every query, collection, threshold and `k ≥ 1`, the
returned result sequence has length at most `k`. -/
theorem rank_length_le_k (features : List Vec) (tf : Vec) (k : Int) (t : ℚ) (l : List Nat)
    (hk : 1 ≤ k) (h : rankIdx features tf k t = some l) :
    (l.length : Int) ≤ k := by
  unfold rankIdx at h
  split at h
  · have hl : l = (bestPhotoIdx (similarities features tf) k).filter
        (fun i => decide (t < (similarities features tf).getD i 0)) :=
      (Option.some.inj h).symm
    subst hl
    have h1 : ((bestPhotoIdx (similarities features tf) k).filter
        (fun i => decide (t < (similarities features tf).getD i 0))).length
        ≤ (bestPhotoIdx (similarities features tf) k).length :=
      List.length_filter_le _ _
    have h2 : (bestPhotoIdx (similarities features tf) k).length ≤ k.toNat := by
      unfold bestPhotoIdx pySliceTo
      rw [if_pos (by omega : (0:Int) ≤ k)]
      exact List.length_take_le _ _
    have h3 := le_trans h1 h2
    calc ((List.filter _ _).length : Int) ≤ (k.toNat : Int) := by exact_mod_cast h3
      _ = k := Int.toNat_of_nonneg (by omega)
  · exact absurd h (by simp)

theorem rank_length_le_k_witness :
    ((([0, 2] : List Nat)).length : Int) ≤ 2 :=
  rank_length_le_k [[1, 0], [0, 1], [mkRat 7 10, mkRat 7 10]] [1, 0] 2 (mkRat 1 2) [0, 2]
    (by decide) rankIdx_scenario_k2

/-- Claim C9: building the collection twice from the same backend and
the same input sequence yields identical collections (the build is a
pure function of its inputs), and on success the index-to-item mapping
follows ingestion order: the items are exactly the converted inputs in
order, with one embedding per item. -/
theorem build_deterministic_ingestion_order {α : Type} (c : α → α) (e : α → Option Vec)
    (items : List α) :
    build c e items = build c e items ∧
    ∀ ps fs, build c e items = some (ps, fs) →
      ps = items.map c ∧ fs.length = items.length := by
  refine ⟨rfl, ?_⟩
  induction items with
  | nil =>
    intro ps fs h
    unfold build at h
    obtain ⟨rfl, rfl⟩ := Prod.mk.injEq .. ▸ Option.some.inj h
    simp
  | cons a rest ih =>
    intro ps fs h
    unfold build at h
    rcases he : e (c a) with _ | f
    all_goals rw [he] at h
    · exact absurd h (by simp)
    · rw [Option.some_bind] at h
      obtain ⟨⟨ps', fs'⟩, hp, heq⟩ := Option.map_eq_some'.mp h
      obtain ⟨h1, h2⟩ := ih ps' fs' hp
      have hps : ps = c a :: ps' := by
        have := congrArg Prod.fst heq
        simpa using this.symm
      have hfs : fs = f :: fs' := by
        have := congrArg Prod.snd heq
        simpa using this.symm
      subst hps hfs
      simp [h1, h2]

theorem build_deterministic_ingestion_order_witness :
    ([1, 2] : List ℚ) = List.map (fun x => x) [1, 2] ∧
    ([[1], [2]] : List Vec).length = ([1, 2] : List ℚ).length :=
  (build_deterministic_ingestion_order (fun x => x) (fun x : ℚ => some [x]) [1, 2]).2
    [1, 2] [[1], [2]] (by decide)

/-- Claim C10: every invocation of `search_images` — for any query,
backend name, `k` and threshold — fails with `NameError`: the
backend-switch comparison reads the global `current_model`, which no
cell of the notebook ever binds, so no search call can return a
result. -/
theorem search_images_unbound_current_model {α : Type} [Inhabited α]
    (images : List α) (feats : List Vec) (encode_text : String → String → Vec)
    (query model_choice : String) (k : Int) (t : ℚ) :
    search_images (initSession images feats) encode_text query model_choice k t
      = Except.error PyError.nameError := rfl

/-- The session state of the backend-switch scenario, with
`current_model` counterfactually bound to the startup model so that
execution can get past the `NameError`. -/
def sessionBound : Session Nat :=
  { current_model := some "CLIP (ViT-B/32)"
    model := "CLIP (ViT-B/32)"
    image_features := [[1, 0]]
    processed_images := [10] }

/-- Claim C1 (code bug): a search naming a backend other than the active
one does not rebuild the vector collection.  As written, the call fails
with `NameError` (`current_model` is unbound); and even with
`current_model` bound, the switch branch only reloads the model —
`image_features` keeps the embeddings produced by the startup backend
while the query is embedded with the newly selected one, so the claimed
rebuild never happens. -/
theorem search_switch_keeps_stale_collection :
    search_images (initSession [10] [[1, 0]]) (fun _ _ => [1, 0]) "a dog"
      "OpenCLIP (ViT-B-32)" 9 (mkRat 1 5) = Except.error PyError.nameError ∧
    search_images sessionBound (fun _ _ => [1, 0]) "a dog"
      "OpenCLIP (ViT-B-32)" 9 (mkRat 1 5)
      = Except.ok ({ sessionBound with model := "OpenCLIP (ViT-B-32)" }, some [10]) ∧
    ({ sessionBound with model := "OpenCLIP (ViT-B-32)" } : Session Nat).image_features
      = sessionBound.image_features := by
  refine ⟨rfl, ?_, rfl⟩
  have hr : rank ([10] : List Nat) [[1, 0]] [1, 0] 9 (mkRat 1 5) = some [10] := by
    unfold rank rankIdx bestPhotoIdx
    rw [sims_single]
    decide
  calc search_images sessionBound (fun _ _ => [1, 0]) "a dog" "OpenCLIP (ViT-B-32)" 9 (mkRat 1 5)
      = Except.ok ({ sessionBound with model := "OpenCLIP (ViT-B-32)" },
          rank ([10] : List Nat) [[1, 0]] [1, 0] 9 (mkRat 1 5)) := rfl
    _ = Except.ok ({ sessionBound with model := "OpenCLIP (ViT-B-32)" }, some [10]) := by
          rw [hr]

end ClipSearch
